import Mathlib

/-!
Verification of the distributed-coordination layer of the go-backend-template
repository: the sliding-window rate limiter (`modules/ratelimit`), its policy
resolution and admission middleware (`modules/middleware/ratelimit`), and the
distributed locking task executor (`modules/db/redis/locking`).

Machine integers are modelled as `ℕ`/`ℤ` with explicit `% 2^64` where Go's
`uint64` wrapping matters; `time.Duration` and `int64` nanosecond values are
modelled as `ℤ`.
-/

namespace RateLimit

/-- Go `bits.Mul64`: full 64×64→128 multiply of two uint64 values (naturals
`< 2^64`), returning `(hi, lo)`. -/
def bitsMul64 (x y : ℕ) : ℕ × ℕ := (x * y / 2 ^ 64, x * y % 2 ^ 64)

/-- Go `bits.Add64`: 64-bit addition with carry-in, returning `(sum, carryOut)`. -/
def bitsAdd64 (x y c : ℕ) : ℕ × ℕ := ((x + y + c) % 2 ^ 64, (x + y + c) / 2 ^ 64)

/-- Go `bits.Div64`: division of the 128-bit value `hi*2^64 + lo` by `y`,
returning `(quotient, remainder)`. Go panics when `y = 0` or when the quotient
overflows 64 bits; `Allow` only calls it with `hi < y`, where the quotient fits. -/
def bitsDiv64 (hi lo y : ℕ) : ℕ × ℕ := ((hi * 2 ^ 64 + lo) / y, (hi * 2 ^ 64 + lo) % y)

/-- Go conversion `uint64(x)` of an int64 value: two's-complement wrap mod `2^64`. -/
def uint64OfInt64 (x : ℤ) : ℕ := (x % 2 ^ 64).toNat

/-- Go conversion `int64(x)` of a uint64 value: two's-complement reinterpretation. -/
def int64OfUInt64 (x : ℕ) : ℤ := if x < 2 ^ 63 then (x : ℤ) else (x : ℤ) - 2 ^ 64

/-- `Result` (modules/ratelimit, part_019): the outcome of one rate limit
decision. `time.Duration` fields are int64 nanosecond counts, modelled as `ℤ`. -/
structure Result where
  Allowed : Bool
  Remaining : ℤ
  RetryAfter : ℤ
  Limit : ℤ
  Window : ℤ
  WindowResetIn : ℤ
deriving DecidableEq

/-- `SlidingWindowRateLimiter` (part_018). The Go `clock` field is modelled by
passing `now` (the `UnixNano` reading) to `Allow` explicitly, and the `counter`
store by explicit state passing. The Go field `keyPrefix` is named `keyPref`
here. `limit` holds the uint64 value `uint64(l)` set by `SlidingWindowFactory`
from the configured int64 limit; `window` is the `time.Duration` in nanoseconds. -/
structure SlidingWindowRateLimiter where
  keyPref : String
  limit : ℕ
  window : ℤ

/-- Store keys. Go builds the key string `fmt.Sprintf("%s:%s:%d", s.keyPrefix,
key, windowIdx)` (`buildKey`, part_018 line 190). For a fixed prefix, the
formatted string determines and is determined by the `(key, windowIdx)` pair
(the decimal index, which contains no colon, is the segment after the last
colon), so the store key is modelled as the structured triple. -/
structure StoreKey where
  pref : String
  key : String
  windowIdx : ℤ
deriving DecidableEq

/-- `SlidingWindowRateLimiter.buildKey` (part_018 line 190). -/
def SlidingWindowRateLimiter.buildKey (s : SlidingWindowRateLimiter) (key : String)
    (windowIdx : ℤ) : StoreKey :=
  ⟨s.keyPref, key, windowIdx⟩

/-- Counter store state (`CounterStore`, modules/ratelimit/counter.go): one
int64 value per key, `0` when the key is absent. TTL-driven expiry only removes
counters whose last increment is at least `2*window` old and is not modelled;
this is faithful for call sequences within that horizon. -/
def CounterState := StoreKey → ℤ

/-- `CounterStore.Incr`: atomically increments the counter and returns the new
value together with the updated store. -/
def storeIncr (σ : CounterState) (k : StoreKey) : ℤ × CounterState :=
  (σ k + 1, fun k2 => if k2 = k then σ k + 1 else σ k2)

/-- `CounterStore.Get`: current value of the counter, `0` when absent. -/
def storeGet (σ : CounterState) (k : StoreKey) : ℤ := σ k

/-! The locals of `SlidingWindowRateLimiter.Allow` (part_018 lines 107-171),
each as a definition named after the corresponding Go local variable, as
functions of the limiter, the clock reading `now`, and the two counter values
returned by the store (`currentWindowCount` from `incrementWindow`,
`prevWindowCount` from `counter.Get`, both before the `max _ 0` clamp). -/

/-- Line 111: `currentWindowIdx := nowNs / windowNs` (Go int64 division
truncates toward zero). -/
def SlidingWindowRateLimiter.currentWindowIdx (s : SlidingWindowRateLimiter)
    (now : ℤ) : ℤ :=
  now.tdiv s.window

/-- Line 117: `currentWindowStartNs := currentWindowIdx * windowNs`. -/
def SlidingWindowRateLimiter.currentWindowStartNs (s : SlidingWindowRateLimiter)
    (now : ℤ) : ℤ :=
  s.currentWindowIdx now * s.window

/-- Lines 129-131: elapsed time in the current window, clamped into
`[0, windowNs]` (`min` with the window, then `max` with 0). -/
def SlidingWindowRateLimiter.currentWindowElapsedNs (s : SlidingWindowRateLimiter)
    (now : ℤ) : ℤ :=
  max (min (now - s.currentWindowStartNs now) s.window) 0

/-- Line 132: `prevWindowWeightNs := windowNs - currentWindowElapsedNs`. -/
def SlidingWindowRateLimiter.prevWindowWeightNs (s : SlidingWindowRateLimiter)
    (now : ℤ) : ℤ :=
  s.window - s.currentWindowElapsedNs now

/-- Line 134: `windowResetIn := max(s.window - currentWindowElapsedNs, 0)`. -/
def SlidingWindowRateLimiter.windowResetIn (s : SlidingWindowRateLimiter)
    (now : ℤ) : ℤ :=
  max (s.window - s.currentWindowElapsedNs now) 0

/-- Lines 143-146: the 128-bit usage quantity
`usage = uint64(currentWindowCount)*windowNsU + uint64(prevWindowCount)*uint64(prevWindowWeightNs)`
computed with `bits.Mul64` and `bits.Add64` (the final carry out of the high
add is dropped, as in the source), returned as `(usageHi, usageLo)`. The two
counts are clamped to be non-negative first (lines 126-127). -/
def SlidingWindowRateLimiter.usageHiLo (s : SlidingWindowRateLimiter)
    (now cur prev : ℤ) : ℕ × ℕ :=
  let windowNsU := uint64OfInt64 s.window
  let c := bitsMul64 (uint64OfInt64 (max cur 0)) windowNsU
  let p := bitsMul64 (uint64OfInt64 (max prev 0)) (uint64OfInt64 (s.prevWindowWeightNs now))
  let lo := bitsAdd64 c.2 p.2 0
  let hi := bitsAdd64 c.1 p.1 lo.2
  (hi.1, lo.1)

/-- Lines 148-149: `limitHi, limitLo := bits.Mul64(s.limit, windowNsU)` and
`allowed := usageHi < limitHi || (usageHi == limitHi && usageLo <= limitLo)`. -/
def SlidingWindowRateLimiter.allowed (s : SlidingWindowRateLimiter)
    (now cur prev : ℤ) : Bool :=
  let u := s.usageHiLo now cur prev
  let l := bitsMul64 s.limit (uint64OfInt64 s.window)
  decide (u.1 < l.1) || (decide (u.1 = l.1) && decide (u.2 ≤ l.2))

/-- Lines 151-167: `usedRequestsCeil`, intended as `ceil(usage / windowNsU)`:
starts at `^uint64(0)`; when `usageHi == 0` it is
`(usageLo + windowNsU - 1) / windowNsU` in wrapping uint64 arithmetic; when
`0 < usageHi < windowNsU` it is `bits.Div64` rounded up unless already at
`^uint64(0)`; otherwise it stays `^uint64(0)`. -/
def SlidingWindowRateLimiter.usedRequestsCeil (s : SlidingWindowRateLimiter)
    (now cur prev : ℤ) : ℕ :=
  let u := s.usageHiLo now cur prev
  let windowNsU := uint64OfInt64 s.window
  let maxUint64 : ℕ := 2 ^ 64 - 1
  if u.1 = 0 then
    (u.2 + windowNsU - 1) % 2 ^ 64 / windowNsU
  else if u.1 < windowNsU then
    let qr := bitsDiv64 u.1 u.2 windowNsU
    if qr.2 ≠ 0 ∧ qr.1 ≠ maxUint64 then qr.1 + 1 else qr.1
  else maxUint64

/-- Lines 169-172: `remainingU := 0; if usedRequestsCeil < s.limit { remainingU
= s.limit - usedRequestsCeil }`. -/
def SlidingWindowRateLimiter.remainingU (s : SlidingWindowRateLimiter)
    (now cur prev : ℤ) : ℕ :=
  if s.usedRequestsCeil now cur prev < s.limit then
    s.limit - s.usedRequestsCeil now cur prev
  else 0

/-- Lines 174-187: the `Result` assembled by `Allow` — `RetryAfter` is first set
to `windowResetIn` and then zeroed when the request is allowed. -/
def SlidingWindowRateLimiter.allowResult (s : SlidingWindowRateLimiter)
    (now cur prev : ℤ) : Result :=
  let result0 : Result :=
    { Allowed := s.allowed now cur prev
      Remaining := int64OfUInt64 (s.remainingU now cur prev)
      RetryAfter := s.windowResetIn now
      Limit := int64OfUInt64 s.limit
      Window := s.window
      WindowResetIn := s.windowResetIn now }
  if result0.Allowed then { result0 with RetryAfter := 0 } else result0

/-- `SlidingWindowRateLimiter.Allow` (part_018 lines 106-188): increments the
current window's counter (`incrementWindow`, TTL `2*window` not modelled — see
`CounterState`), reads the previous window's counter, and decides. Store errors
are out of scope: the claims all condition on both store operations succeeding. -/
def SlidingWindowRateLimiter.Allow (s : SlidingWindowRateLimiter) (now : ℤ)
    (key : String) (σ : CounterState) : Result × CounterState :=
  let incr := storeIncr σ (s.buildKey key (s.currentWindowIdx now))
  let prevCount := storeGet incr.2 (s.buildKey key (s.currentWindowIdx now - 1))
  (s.allowResult now incr.1 prevCount, incr.2)

/-- Run `Allow` for one fixed key at each time in `times` in order, threading
the store state. -/
def runAllows (s : SlidingWindowRateLimiter) (key : String) (times : List ℤ)
    (σ : CounterState) : List Result × CounterState :=
  match times with
  | [] => ([], σ)
  | t :: ts =>
    let r := s.Allow t key σ
    let rest := runAllows s key ts r.2
    (r.1 :: rest.1, rest.2)

/-! Specification-side definitions, written from the words of claim C1 (spec
§4.2 steps 4-6), to be compared with the source-side computation. -/

/-- The claim's elapsed quantity `clamp(elapsed, 0, windowDuration)` where
`elapsed = now - windowStart(currentWindowIndex)`. -/
def elapsedSpec (window now : ℤ) : ℤ :=
  min (max (now - now.tdiv window * window) 0) window

/-- The claim's `usage = currentCount * windowDuration + prevCount * prevWeight`
with `prevWeight = windowDuration - clamp(elapsed, 0, windowDuration)` and the
counts clamped to be non-negative, computed exactly (unbounded integers). -/
def usageSpec (window now curCount prevCount : ℤ) : ℕ :=
  (max curCount 0).toNat * window.toNat
    + (max prevCount 0).toNat * (window - elapsedSpec window now).toNat

end RateLimit

namespace RateLimitMW

/-!
The HTTP admission middleware package `modules/middleware/ratelimit`
(ratelimit.go). The limiter behind a `Policy` is an opaque collaborator at this
level: its `Allow` method is modelled as a function from the extracted key to
either a `Result` or a store-level error (context and store state elided).
-/

/-- `rl.Key` (modules/ratelimit, part_019): opaque rate-limit subject id. -/
abbrev Key := String

/-- A `rl.RateLimiter` as seen by the middleware. -/
def RateLimiterFn := Key → Except String RateLimit.Result

/-- The parts of `*http.Request` this middleware reads: `Header.Get` (which
returns the empty string when a header is absent) and `RemoteAddr`. -/
structure Request where
  headers : String → String
  remoteAddr : String

/-- `RouteInfo` (ratelimit.go lines 25-29). -/
structure RouteInfo where
  ID : String
  Method : String
  Path : String

/-- `KeyFunc` (line 19). -/
def KeyFunc := Request → Key

/-- `RouteInfoFunc` (line 22). -/
def RouteInfoFunc := Request → RouteInfo

/-- `Policy` (lines 31-34). `KeyFn` is a Go function field that the handler
nil-checks, hence `Option`; a nil `Limiter` is never checked (it would panic),
so it is modelled as total. -/
structure Policy where
  Limiter : RateLimiterFn
  KeyFn : Option KeyFunc

/-- `RuntimePolicy` (lines 37-53). The two-level Go map
`map[Pattern]map[method]Policy` and the `map[method]Policy` default map are
modelled as functions into `Option`; `defaultPolicy *Policy` is an `Option`. -/
structure RuntimePolicy where
  policyMap : String → Option (String → Option Policy)
  defaultPolicyByMethod : Option (String → Option Policy)
  defaultPolicy : Option Policy
  AllowIfNoMatch : Bool
  AllowIfNoIdentifier : Bool
  RouteInfoFn : RouteInfoFunc

/-- `policySource` (lines 56-62). -/
inductive PolicySource where
  | explicit
  | defaultMethod
  | defaultAll
deriving DecidableEq

/-- `normalizeMethod` (line 64): `strings.ToUpper`. Lean's `Char.toUpper`
agrees with Go's mapping on ASCII, which covers HTTP method tokens; the map is
taken over the character list so that it is kernel-computable. -/
def normalizeMethod (m : String) : String := ⟨m.data.map Char.toUpper⟩

/-- Tiers 2 and 3 of `findPolicy` (lines 75-85): the method-scoped default,
then the catch-all default, then not-found. -/
def RuntimePolicy.findPolicyDefault (p : RuntimePolicy) (routeInfo : RouteInfo) :
    Option (Policy × PolicySource) :=
  let byMethod :=
    if routeInfo.Method ≠ "" then
      match p.defaultPolicyByMethod with
      | some dm => dm (normalizeMethod routeInfo.Method)
      | none => none
    else none
  match byMethod with
  | some px => some (px, .defaultMethod)
  | none =>
    match p.defaultPolicy with
    | some px => some (px, .defaultAll)
    | none => none

/-- `RuntimePolicy.findPolicy` (lines 68-86). Go returns `(Policy, bool,
policySource)`; the zero-`Policy`/`false`/`""` not-found triple is `none`. -/
def RuntimePolicy.findPolicy (p : RuntimePolicy) (routeInfo : RouteInfo) :
    Option (Policy × PolicySource) :=
  match p.policyMap routeInfo.ID with
  | some pm =>
    match pm (normalizeMethod routeInfo.Method) with
    | some px => some (px, .explicit)
    | none => p.findPolicyDefault routeInfo
  | none => p.findPolicyDefault routeInfo

/-- `EndpointRule` (modules/ratelimit config, part_014). -/
structure EndpointRule where
  Method : String
  Limit : ℤ
  Window : ℤ
  KeyStrategy : String

/-- `Route` (part_014). -/
structure Route where
  Pattern : String
  EndpointRules : List EndpointRule

/-- `RestHTTPConfig` (part_014). -/
structure RestHTTPConfig where
  Routes : List Route
  DefaultPolicy : EndpointRule
  AllowIfNoMatch : Bool
  AllowIfNoIdentifier : Bool

/-- `rl.LimiterFactory` (part_019): builds a limiter from (limit, window). -/
def LimiterFactory := ℤ → ℤ → RateLimiterFn

/-- Body of the inner rule loop of `ParsePolicy` (lines 135-154): duplicate
`(pattern, method)` detection, key-strategy resolution, then insertion. -/
def insertRule (factory : LimiterFactory) (keyStrategies : String → Option KeyFunc)
    (pat : String) (rtp : RuntimePolicy) (rule : EndpointRule) :
    Except String RuntimePolicy :=
  let m := normalizeMethod rule.Method
  let pm := (rtp.policyMap pat).getD (fun _ => none)
  match pm m with
  | some _ => .error "ratelimit parse policy: duplicate method config on same pattern"
  | none =>
    match keyStrategies rule.KeyStrategy with
    | none => .error "ratelimit parse policy: no such key strategy"
    | some ks =>
      .ok { rtp with
        policyMap := fun p =>
          if p = pat then
            some (fun mm =>
              if mm = m then some ⟨factory rule.Limit rule.Window, some ks⟩ else pm mm)
          else rtp.policyMap p }

/-- Body of the route loop of `ParsePolicy` (lines 125-155): materialize the
pattern's inner map if absent, then fold the endpoint rules. -/
def processRoute (factory : LimiterFactory) (keyStrategies : String → Option KeyFunc)
    (rtp : RuntimePolicy) (r : Route) : Except String RuntimePolicy :=
  let rtp1 :=
    match rtp.policyMap r.Pattern with
    | some _ => rtp
    | none => { rtp with
        policyMap := fun p =>
          if p = r.Pattern then some (fun _ => none) else rtp.policyMap p }
  r.EndpointRules.foldlM (insertRule factory keyStrategies r.Pattern) rtp1

/-- `ParsePolicy` (lines 89-157): default-policy handling (lines 104-123,
considered configured only with a positive window and a non-empty key
strategy), then the route rules. -/
def ParsePolicy (factory : LimiterFactory) (cfg : RestHTTPConfig)
    (routeFn : RouteInfoFunc) (keyStrategies : String → Option KeyFunc) :
    Except String RuntimePolicy :=
  let rtp0 : RuntimePolicy :=
    { policyMap := fun _ => none
      defaultPolicyByMethod := none
      defaultPolicy := none
      AllowIfNoMatch := cfg.AllowIfNoMatch
      AllowIfNoIdentifier := cfg.AllowIfNoIdentifier
      RouteInfoFn := routeFn }
  let withDefault : Except String RuntimePolicy :=
    if 0 < cfg.DefaultPolicy.Window ∧ cfg.DefaultPolicy.KeyStrategy ≠ "" then
      match keyStrategies cfg.DefaultPolicy.KeyStrategy with
      | none => .error "ratelimit parse policy: no such default key strategy"
      | some ks =>
        let p : Policy := ⟨factory cfg.DefaultPolicy.Limit cfg.DefaultPolicy.Window, some ks⟩
        if cfg.DefaultPolicy.Method ≠ "" then
          .ok { rtp0 with
            defaultPolicyByMethod :=
              some (fun mm =>
                if mm = normalizeMethod cfg.DefaultPolicy.Method then some p else none) }
        else .ok { rtp0 with defaultPolicy := some p }
    else .ok rtp0
  withDefault.bind (fun rtp => cfg.Routes.foldlM (processRoute factory keyStrategies) rtp)

/-- The observable per-request outcomes of the middleware handler:
`problem.Write` with a 405-equivalent, a 429-equivalent, or a 500-equivalent
problem, or handing the request to the next handler unchanged. -/
inductive MWOutcome where
  | methodNotAllowed (msg : String)
  | tooManyRequests (msg : String)
  | internalError (msg : String)
  | nextHandler
deriving DecidableEq

/-- `http.StatusText(http.StatusTooManyRequests)`. -/
def tooManyRequestsText : String := "Too Many Requests"

/-- One request through the handler returned by `NewRateLimitMiddleware`
(lines 161-257). Returns the outcome paired with a flag recording whether
`px.Limiter.Allow` was invoked. Logging and the lazy header emission
(`rateLimitHeaderWriter`) are elided; each `problem.Write(w, X)` is modelled by
the corresponding outcome constructor. -/
def rateLimitHandler (p : RuntimePolicy) (r : Request) : MWOutcome × Bool :=
  let routeInfo := p.RouteInfoFn r
  if routeInfo.Method = "" then (.methodNotAllowed "method not allowed", false)
  else
    match p.findPolicy routeInfo with
    | none =>
      if routeInfo.ID = "" then
        if p.AllowIfNoMatch then (.nextHandler, false)
        else (.methodNotAllowed "not allowed", false)
      else if p.AllowIfNoMatch then (.nextHandler, false)
      else (.tooManyRequests tooManyRequestsText, false)
    | some (px, _src) =>
      match px.KeyFn with
      | none =>
        if ¬p.AllowIfNoIdentifier then (.tooManyRequests tooManyRequestsText, false)
        else (.nextHandler, false)
      | some kf =>
        let key := kf r
        if key = "" ∧ ¬p.AllowIfNoIdentifier then
          (.tooManyRequests tooManyRequestsText, false)
        else
          match px.Limiter key with
          | .error _ => (.internalError "Internal Server Error", true)
          | .ok result =>
            if ¬result.Allowed then (.tooManyRequests tooManyRequestsText, true)
            else (.nextHandler, true)

/-- Go `strings.Split(s, sep)` for a single-character separator, over the
character list: splits around each occurrence of `sep` and always returns at
least one element (`Split("", sep) = [""]`). -/
def goSplitChar (sep : Char) : List Char → List String
  | [] => [""]
  | c :: cs =>
    if c = sep then "" :: goSplitChar sep cs
    else
      match goSplitChar sep cs with
      | h :: t => (⟨c :: h.data⟩ : String) :: t
      | [] => [(⟨[c]⟩ : String)]

/-- `strings.Split` specialised to the middleware's one-character separator. -/
def goSplit (s : String) (sep : Char) : List String := goSplitChar sep s.data

/-- `RemoteIpKeyFunc` (lines 303-311): the last element of the comma-split
`X-Forwarded-For` header, with a fallback to `r.RemoteAddr` guarded by
`len(ips) == 0`. -/
def RemoteIpKeyFunc (r : Request) : Key :=
  let ips := goSplit (r.headers "X-Forwarded-For") ','
  if ips.length = 0 then r.remoteAddr
  else ips.getLast!

/-! Concrete sample instances used by witness and counterexample
theorems, plus the verification-side predicates `hasPair` and `rulePairs`
used to state claim C6. -/

/-- Sample limiter/policies/policy tables used by concrete instantiations. -/
def samplePolicyA : Policy :=
  ⟨fun _ => .ok ⟨true, 0, 0, 1, 0, 0⟩, none⟩

def samplePolicyB : Policy :=
  ⟨fun _ => .ok ⟨true, 0, 0, 2, 0, 0⟩, none⟩

def samplePolicyC : Policy :=
  ⟨fun _ => .ok ⟨true, 0, 0, 3, 0, 0⟩, none⟩

def sampleRuntime : RuntimePolicy :=
  { policyMap := fun pat =>
      if pat = "/a" then some (fun m => if m = "GET" then some samplePolicyA else none)
      else none
    defaultPolicyByMethod := some (fun m => if m = "GET" then some samplePolicyB else none)
    defaultPolicy := some samplePolicyC
    AllowIfNoMatch := false
    AllowIfNoIdentifier := false
    RouteInfoFn := fun _ => ⟨"", "", ""⟩ }

def emptyRuntime : RuntimePolicy :=
  { policyMap := fun _ => none
    defaultPolicyByMethod := none
    defaultPolicy := none
    AllowIfNoMatch := false
    AllowIfNoIdentifier := false
    RouteInfoFn := fun _ => ⟨"", "", ""⟩ }

/-- Whether the compiled policy map already holds an entry for `(pat, m)` —
exactly the membership test `insertRule` performs on the inner Go map. -/
def hasPair (rtp : RuntimePolicy) (pat m : String) : Bool :=
  (((rtp.policyMap pat).getD (fun _ => none)) m).isSome

/-- The `(pattern, normalized method)` pairs declared by the configuration's
routes, in declaration order: claim C6's duplicate criterion. -/
def rulePairs (cfg : RestHTTPConfig) : List (String × String) :=
  cfg.Routes.flatMap (fun r =>
    r.EndpointRules.map (fun rule => (r.Pattern, normalizeMethod rule.Method)))

def sampleFactory : LimiterFactory := fun _ _ => fun _ => .ok ⟨true, 0, 0, 0, 0, 0⟩

def sampleKeyStrategies : String → Option KeyFunc :=
  fun sid => if sid = "remote_ip" then some RemoteIpKeyFunc else none

def sampleRouteFn : RouteInfoFunc := fun _ => ⟨"", "", ""⟩

/-- A configuration with a case-insensitive duplicate: `get` and `GET` on the
same pattern. -/
def sampleCfgDup : RestHTTPConfig :=
  { Routes := [⟨"/a", [⟨"get", 1, 1000, "remote_ip"⟩, ⟨"GET", 2, 1000, "remote_ip"⟩]⟩]
    DefaultPolicy := ⟨"", 0, 0, ""⟩
    AllowIfNoMatch := false
    AllowIfNoIdentifier := false }

/-- A duplicate-free configuration with known key strategies only. -/
def sampleCfgOk : RestHTTPConfig :=
  { Routes := [⟨"/a", [⟨"GET", 1, 1000, "remote_ip"⟩, ⟨"POST", 2, 1000, "remote_ip"⟩]⟩]
    DefaultPolicy := ⟨"", 0, 0, ""⟩
    AllowIfNoMatch := false
    AllowIfNoIdentifier := false }

def sampleRequest : Request := ⟨fun _ => "", "10.0.0.7:1234"⟩

/-- No-policy runtime whose route extractor yields an empty pattern. -/
def sampleRuntimeNoMatch : RuntimePolicy :=
  { policyMap := fun _ => none
    defaultPolicyByMethod := none
    defaultPolicy := none
    AllowIfNoMatch := false
    AllowIfNoIdentifier := false
    RouteInfoFn := fun _ => ⟨"", "GET", "/x"⟩ }

def sampleRuntimeAllowThrough : RuntimePolicy :=
  { policyMap := fun _ => none
    defaultPolicyByMethod := none
    defaultPolicy := none
    AllowIfNoMatch := true
    AllowIfNoIdentifier := false
    RouteInfoFn := fun _ => ⟨"/b", "GET", "/b"⟩ }

def sampleRuntimeDeny : RuntimePolicy :=
  { policyMap := fun _ => none
    defaultPolicyByMethod := none
    defaultPolicy := none
    AllowIfNoMatch := false
    AllowIfNoIdentifier := false
    RouteInfoFn := fun _ => ⟨"/b", "GET", "/b"⟩ }

def sampleIpPolicy : Policy :=
  ⟨fun _ => .ok ⟨true, 0, 0, 5, 0, 0⟩, some RemoteIpKeyFunc⟩

def sampleRuntimeIp : RuntimePolicy :=
  { policyMap := fun pat =>
      if pat = "/ip" then some (fun m => if m = "GET" then some sampleIpPolicy else none)
      else none
    defaultPolicyByMethod := none
    defaultPolicy := none
    AllowIfNoMatch := false
    AllowIfNoIdentifier := false
    RouteInfoFn := fun _ => ⟨"/ip", "GET", "/ip"⟩ }

end RateLimitMW

namespace Locking

/-!
The distributed locking task executor `modules/db/redis/locking/locking.go`.
The rueidislock locker, the logger and the wall clock are external
collaborators; their behavior during one `Execute` call is an explicit input
(`ExecEnv`), and the observable behavior is returned as an `ExecTrace`.
-/

/-- Go `error` values relevant to the locking package: the context errors, the
rueidislock sentinels, the package sentinels, `errors.New` strings, and
`fmt.Errorf` with a trailing `%w` verb (`errorf msg cause`; the formatted
message is abbreviated, the wrapped cause is exact). -/
inductive GoError where
  | canceled
  | deadlineExceeded
  | lockerClosed
  | notLocked
  | lockNotAcquired
  | invalidConfiguration
  | simple (msg : String)
  | errorf (msg : String) (cause : GoError)
deriving DecidableEq

/-- `errors.Is`: value comparison along the `%w` wrap chain. -/
def errorsIs (e target : GoError) : Bool :=
  decide (e = target) ||
    match e with
    | .errorf _ cause => errorsIs cause target
    | _ => false

/-- `LockConfiguration` (locking.go lines 36-40); durations in nanoseconds. -/
structure LockConfiguration where
  Name : String
  LockAtMostFor : ℤ
  LockAtLeastFor : ℤ

/-- `validateConfig` (lines 311-326): each failure wraps
`ErrInvalidConfiguration` via `fmt.Errorf("%w: ...")`. -/
def validateConfig (cfg : LockConfiguration) : Option GoError :=
  if cfg.Name = "" then
    some (.errorf "lock name must not be empty" .invalidConfiguration)
  else if cfg.LockAtMostFor < 0 then
    some (.errorf "lockAtMostFor must not be negative" .invalidConfiguration)
  else if cfg.LockAtLeastFor < 0 then
    some (.errorf "lockAtLeastFor must not be negative" .invalidConfiguration)
  else if 0 < cfg.LockAtMostFor ∧ cfg.LockAtMostFor < cfg.LockAtLeastFor then
    some (.errorf "lockAtLeastFor > lockAtMostFor" .invalidConfiguration)
  else none

/-- The configuration fields of `LockingTaskExecutor` (lines 59-77); the
locker, logger and clock are modelled through `ExecEnv`. The Go field
`namePrefix` is named `namePref` here. -/
structure LockingTaskExecutor where
  waitForLock : Bool
  acquireTimeout : ℤ
  namePref : String

/-- `lockName` (lines 304-309). -/
def LockingTaskExecutor.lockName (e : LockingTaskExecutor) (base : String) : String :=
  if e.namePref = "" then base else e.namePref ++ base

/-- Which of the three `select` cases fires first if the `LockAtLeastFor` hold
wait is entered (lines 289-296): the hold timer, the caller's context, or the
lock's own context. -/
inductive HoldOutcome where
  | timerFired
  | callerCtxDone
  | lockCtxDone
deriving DecidableEq

/-- The external collaborators' behavior during one `Execute` call: the error
from lock acquisition (`none` = acquired), the task's returned error value
(`none` = nil), the `e.now()` readings taken right before the task runs (line
256) and right after the `LockAtLeastFor` check begins (line 274), and which
`select` case would end the hold wait. -/
structure ExecEnv where
  acquireErr : Option GoError
  taskErr : Option GoError
  taskStartT : ℤ
  afterTaskT : ℤ
  holdSelect : HoldOutcome

/-- The observable outcome of one `Execute` call: the error it returns, and —
when the minimum-hold wait of lines 272-298 was entered — the timer duration
paired with the `select` case that ended the wait. The deferred `lockCancel`
(release) runs when `Execute` returns: after the full recorded wait when the
timer fires, or as soon as a context is done when one of the cancellation
cases fires first. -/
structure ExecTrace where
  result : Option GoError
  holdWait : Option (ℤ × HoldOutcome)
deriving DecidableEq

/-- `LockingTaskExecutor.Execute` (lines 159-302). `taskIsNil` models the
`task == nil` guard; acquisition (lines 192-230) maps the locker's error per
mode; after a successful acquisition the task runs and its error is what
`Execute` returns (line 301); lines 272-298 compute
`minHoldUntil = taskStart + LockAtLeastFor` and wait out the remainder unless
a context is done first. -/
def LockingTaskExecutor.Execute (e : LockingTaskExecutor) (cfg : LockConfiguration)
    (taskIsNil : Bool) (env : ExecEnv) : ExecTrace :=
  if taskIsNil then ⟨some (.simple "locking: task must not be nil"), none⟩
  else
    match validateConfig cfg with
    | some err => ⟨some err, none⟩
    | none =>
      match env.acquireErr with
      | some err =>
        if e.waitForLock then
          if errorsIs err .lockerClosed then
            ⟨some (.errorf "locking: locker closed while acquiring lock" err), none⟩
          else if errorsIs err .deadlineExceeded || errorsIs err .canceled then
            ⟨some err, none⟩
          else ⟨some (.errorf "locking: failed to acquire lock" err), none⟩
        else
          if errorsIs err .notLocked then ⟨some .lockNotAcquired, none⟩
          else if errorsIs err .lockerClosed then
            ⟨some (.errorf "locking: locker closed while trying to acquire lock" err), none⟩
          else ⟨some (.errorf "locking: failed to try-acquire lock" err), none⟩
      | none =>
        let holdWait :=
          if 0 < cfg.LockAtLeastFor then
            let minHoldUntil := env.taskStartT + cfg.LockAtLeastFor
            if env.afterTaskT < minHoldUntil then
              some (minHoldUntil - env.afterTaskT, env.holdSelect)
            else none
          else none
        ⟨env.taskErr, holdWait⟩

end Locking

namespace RateLimit

theorem uint64OfInt64_eq_toNat {x : ℤ} (h0 : 0 ≤ x) (h1 : x < 2 ^ 64) :
    uint64OfInt64 x = x.toNat := by
  unfold uint64OfInt64
  omega

theorem elapsed_nonneg (s : SlidingWindowRateLimiter) (now : ℤ) :
    0 ≤ s.currentWindowElapsedNs now :=
  le_max_right _ _

theorem elapsed_lt_window (s : SlidingWindowRateLimiter) (now : ℤ)
    (hW : 0 < s.window) : s.currentWindowElapsedNs now < s.window := by
  unfold SlidingWindowRateLimiter.currentWindowElapsedNs
    SlidingWindowRateLimiter.currentWindowStartNs SlidingWindowRateLimiter.currentWindowIdx
  have h1 := Int.tdiv_add_tmod' now s.window
  have h2 := Int.tmod_lt_of_pos now hW
  omega

theorem prevWeight_pos (s : SlidingWindowRateLimiter) (now : ℤ)
    (hW : 0 < s.window) : 0 < s.prevWindowWeightNs now := by
  have := elapsed_lt_window s now hW
  unfold SlidingWindowRateLimiter.prevWindowWeightNs
  omega

theorem prevWeight_le_window (s : SlidingWindowRateLimiter) (now : ℤ) :
    s.prevWindowWeightNs now ≤ s.window := by
  have := elapsed_nonneg s now
  unfold SlidingWindowRateLimiter.prevWindowWeightNs
  omega

theorem elapsedSpec_eq (s : SlidingWindowRateLimiter) (now : ℤ) (hW : 0 ≤ s.window) :
    elapsedSpec s.window now = s.currentWindowElapsedNs now := by
  unfold elapsedSpec SlidingWindowRateLimiter.currentWindowElapsedNs
    SlidingWindowRateLimiter.currentWindowStartNs SlidingWindowRateLimiter.currentWindowIdx
  omega

/-- The 128-bit pair computed by `usageHiLo` decomposes exactly the claimed
usage quantity: no intermediate overflow occurs for int64 counts and window. -/
theorem usageHiLo_eq (s : SlidingWindowRateLimiter) (now cur prev : ℤ)
    (hW : 0 < s.window) (hW2 : s.window < 2 ^ 63)
    (hcur : cur < 2 ^ 63) (hprev : prev < 2 ^ 63) :
    (s.usageHiLo now cur prev).1 * 2 ^ 64 + (s.usageHiLo now cur prev).2
        = usageSpec s.window now cur prev
      ∧ (s.usageHiLo now cur prev).2 < 2 ^ 64 := by
  have hpw0 : 0 < s.prevWindowWeightNs now := prevWeight_pos s now hW
  have hpw1 : s.prevWindowWeightNs now ≤ s.window := prevWeight_le_window s now
  have hcc : uint64OfInt64 (max cur 0) = (max cur 0).toNat :=
    uint64OfInt64_eq_toNat (by omega) (by omega)
  have hpp : uint64OfInt64 (max prev 0) = (max prev 0).toNat :=
    uint64OfInt64_eq_toNat (by omega) (by omega)
  have hWu : uint64OfInt64 s.window = s.window.toNat :=
    uint64OfInt64_eq_toNat (by omega) (by omega)
  have hpwu : uint64OfInt64 (s.prevWindowWeightNs now) = (s.prevWindowWeightNs now).toNat :=
    uint64OfInt64_eq_toNat (by omega) (by omega)
  have husage : usageSpec s.window now cur prev
      = (max cur 0).toNat * s.window.toNat
        + (max prev 0).toNat * (s.prevWindowWeightNs now).toNat := by
    unfold usageSpec SlidingWindowRateLimiter.prevWindowWeightNs
    rw [elapsedSpec_eq s now (le_of_lt hW)]
  simp only [SlidingWindowRateLimiter.usageHiLo, bitsMul64, bitsAdd64, hcc, hpp, hWu, hpwu,
    husage]
  have h1 : (max cur 0).toNat < 2 ^ 63 := by omega
  have h2 : (max prev 0).toNat < 2 ^ 63 := by omega
  have h3 : s.window.toNat < 2 ^ 63 := by omega
  have h4 : (s.prevWindowWeightNs now).toNat < 2 ^ 63 := by omega
  have hA : (max cur 0).toNat * s.window.toNat < 2 ^ 126 := by
    calc (max cur 0).toNat * s.window.toNat < 2 ^ 63 * 2 ^ 63 := Nat.mul_lt_mul'' h1 h3
    _ = 2 ^ 126 := by norm_num
  have hB : (max prev 0).toNat * (s.prevWindowWeightNs now).toNat < 2 ^ 126 := by
    calc (max prev 0).toNat * (s.prevWindowWeightNs now).toNat
        < 2 ^ 63 * 2 ^ 63 := Nat.mul_lt_mul'' h2 h4
    _ = 2 ^ 126 := by norm_num
  generalize (max cur 0).toNat * s.window.toNat = A at hA ⊢
  generalize (max prev 0).toNat * (s.prevWindowWeightNs now).toNat = B at hB ⊢
  omega

/-- Claim C1's characterization of the `allowed` flag, as a helper lemma:
`allowed` is exactly the comparison of the exact usage against
`limit * windowDuration`, with no precision loss. -/
theorem allowed_iff_usage (s : SlidingWindowRateLimiter) (now cur prev : ℤ)
    (hW : 0 < s.window) (hW2 : s.window < 2 ^ 63)
    (hcur : cur < 2 ^ 63) (hprev : prev < 2 ^ 63) :
    s.allowed now cur prev = true ↔
      usageSpec s.window now cur prev ≤ s.limit * s.window.toNat := by
  obtain ⟨hu, hu2⟩ := usageHiLo_eq s now cur prev hW hW2 hcur hprev
  have hWu : uint64OfInt64 s.window = s.window.toNat :=
    uint64OfInt64_eq_toNat (by omega) (by omega)
  simp only [SlidingWindowRateLimiter.allowed, bitsMul64, hWu, Bool.or_eq_true,
    Bool.and_eq_true, decide_eq_true_eq]
  rw [← hu]
  generalize (s.usageHiLo now cur prev).1 = uHi at *
  generalize (s.usageHiLo now cur prev).2 = uLo at *
  generalize s.limit * s.window.toNat = L
  omega

theorem buildKey_ne (s : SlidingWindowRateLimiter) (key : String) {i j : ℤ}
    (h : i ≠ j) : s.buildKey key i ≠ s.buildKey key j :=
  fun heq => h (congrArg StoreKey.windowIdx heq)

/-- `Allow` returns the `allowResult` computed at the two counter values the
store hands back: the freshly incremented current-window count and the
(untouched) previous-window count. -/
theorem Allow_fst (s : SlidingWindowRateLimiter) (now : ℤ) (key : String)
    (σ : CounterState) :
    (s.Allow now key σ).1 =
      s.allowResult now (σ (s.buildKey key (s.currentWindowIdx now)) + 1)
        (σ (s.buildKey key (s.currentWindowIdx now - 1))) := by
  unfold SlidingWindowRateLimiter.Allow storeIncr storeGet
  simp only []
  rw [if_neg (buildKey_ne s key (by omega))]

theorem allowResult_Allowed (s : SlidingWindowRateLimiter) (now cur prev : ℤ) :
    (s.allowResult now cur prev).Allowed = s.allowed now cur prev := by
  unfold SlidingWindowRateLimiter.allowResult
  dsimp only
  split <;> rfl

/-- C1: for every call to `SlidingWindowRateLimiter.Allow` with `window > 0`
and configured limit `>= 0` (an int64, so `s.limit < 2^63` after the factory's
`uint64(l)` conversion) in which both store operations succeed — returning the
int64 counts `σ(curKey)+1` and `σ(prevKey)` — the returned `Result.Allowed` is
true if and only if `usage ≤ limit * windowDuration`, where
`usage = currentCount*windowDuration + prevCount*prevWeight`,
`prevWeight = windowDuration - clamp(elapsed, 0, windowDuration)`, the counts
are clamped to be non-negative, and the comparison is computed exactly in
unbounded integer arithmetic (`usageSpec`). -/
theorem C1_allowed_iff_exact_usage (s : SlidingWindowRateLimiter) (now : ℤ)
    (key : String) (σ : CounterState)
    (hW : 0 < s.window) (hW2 : s.window < 2 ^ 63) (hlim : s.limit < 2 ^ 63)
    (hcur : σ (s.buildKey key (s.currentWindowIdx now)) + 1 < 2 ^ 63)
    (hprev : σ (s.buildKey key (s.currentWindowIdx now - 1)) < 2 ^ 63) :
    ((s.Allow now key σ).1.Allowed = true ↔
      usageSpec s.window now (σ (s.buildKey key (s.currentWindowIdx now)) + 1)
          (σ (s.buildKey key (s.currentWindowIdx now - 1)))
        ≤ s.limit * s.window.toNat) := by
  rw [Allow_fst, allowResult_Allowed]
  exact allowed_iff_usage s now _ _ hW hW2 hcur hprev

theorem C1_witness :
    ((({ keyPref := "rl", limit := 10, window := 1000000000 } :
          SlidingWindowRateLimiter).Allow 1234 "k" (fun _ => 0)).1.Allowed = true ↔
      usageSpec 1000000000 1234
          ((fun _ => (0 : ℤ)) (({ keyPref := "rl", limit := 10, window := 1000000000 } :
            SlidingWindowRateLimiter).buildKey "k"
              (({ keyPref := "rl", limit := 10, window := 1000000000 } :
                SlidingWindowRateLimiter).currentWindowIdx 1234)) + 1)
          ((fun _ => (0 : ℤ)) (({ keyPref := "rl", limit := 10, window := 1000000000 } :
            SlidingWindowRateLimiter).buildKey "k"
              (({ keyPref := "rl", limit := 10, window := 1000000000 } :
                SlidingWindowRateLimiter).currentWindowIdx 1234 - 1)))
        ≤ 10 * (1000000000 : ℤ).toNat) :=
  C1_allowed_iff_exact_usage _ 1234 "k" (fun _ => 0) (by decide) (by decide)
    (by decide) (by decide) (by decide)

/-- C3 (code bug witness): with limit 10, window `2^62` ns, `now = 2^62 + 1` ns
(so 1 ns elapsed in window index 1), current count 3 and previous count 1, the
exact usage is `2^64 - 1`, so `usageHi = 0` and the true
`ceil(usage/windowDuration) = 4` is representable — yet the uint64 addition
`usageLo + windowNsU - 1` wraps modulo `2^64` and the code computes
`usedRequestsCeil = 0` (and hence `remainingU = limit = 10` instead of 6). -/
theorem C3_ceil_wrap_at_failing_input :
    (({ keyPref := "rl", limit := 10, window := 2 ^ 62 } :
        SlidingWindowRateLimiter).usageHiLo (2 ^ 62 + 1) 3 1).1 = 0
  ∧ (({ keyPref := "rl", limit := 10, window := 2 ^ 62 } :
        SlidingWindowRateLimiter).usageHiLo (2 ^ 62 + 1) 3 1).2 = 2 ^ 64 - 1
  ∧ ((({ keyPref := "rl", limit := 10, window := 2 ^ 62 } :
          SlidingWindowRateLimiter).usageHiLo (2 ^ 62 + 1) 3 1).1 * 2 ^ 64
        + (({ keyPref := "rl", limit := 10, window := 2 ^ 62 } :
            SlidingWindowRateLimiter).usageHiLo (2 ^ 62 + 1) 3 1).2
        + (2 ^ 62 - 1)) / 2 ^ 62 = 4
  ∧ ({ keyPref := "rl", limit := 10, window := 2 ^ 62 } :
        SlidingWindowRateLimiter).usedRequestsCeil (2 ^ 62 + 1) 3 1 = 0
  ∧ ({ keyPref := "rl", limit := 10, window := 2 ^ 62 } :
        SlidingWindowRateLimiter).remainingU (2 ^ 62 + 1) 3 1 = 10 := by
  decide

/-- C4: for every call to `Allow` with configured limit `>= 0` (int64, so
`s.limit < 2^63` after the factory's conversion) and window `> 0` that returns
without error, the returned `Result` satisfies `Remaining ≤ Limit`,
`Remaining ≥ 0`, `WindowResetIn ∈ [0, Window]`, and `RetryAfter = 0` iff
`Allowed = true`. -/
theorem C4_result_invariants (s : SlidingWindowRateLimiter) (now : ℤ)
    (key : String) (σ : CounterState)
    (hW : 0 < s.window) (hlim : s.limit < 2 ^ 63) :
    (s.Allow now key σ).1.Remaining ≤ (s.Allow now key σ).1.Limit
  ∧ 0 ≤ (s.Allow now key σ).1.Remaining
  ∧ 0 ≤ (s.Allow now key σ).1.WindowResetIn
  ∧ (s.Allow now key σ).1.WindowResetIn ≤ (s.Allow now key σ).1.Window
  ∧ ((s.Allow now key σ).1.RetryAfter = 0 ↔ (s.Allow now key σ).1.Allowed = true) := by
  rw [Allow_fst]
  set c := σ (s.buildKey key (s.currentWindowIdx now)) + 1 with hc
  set p := σ (s.buildKey key (s.currentWindowIdx now - 1)) with hp
  have hrem : s.remainingU now c p ≤ s.limit := by
    unfold SlidingWindowRateLimiter.remainingU
    split <;> omega
  have hR : int64OfUInt64 (s.remainingU now c p) = (s.remainingU now c p : ℤ) := by
    unfold int64OfUInt64
    rw [if_pos (by omega)]
  have hL : int64OfUInt64 s.limit = (s.limit : ℤ) := by
    unfold int64OfUInt64
    rw [if_pos (by omega)]
  have he0 := elapsed_nonneg s now
  have he1 := elapsed_lt_window s now hW
  have hreset0 : 0 ≤ s.windowResetIn now := le_max_right _ _
  have hreset1 : s.windowResetIn now ≤ s.window := by
    unfold SlidingWindowRateLimiter.windowResetIn
    omega
  have hresetpos : 0 < s.windowResetIn now := by
    unfold SlidingWindowRateLimiter.windowResetIn
    omega
  unfold SlidingWindowRateLimiter.allowResult
  dsimp only
  split
  case isTrue h =>
    refine ⟨?_, ?_, hreset0, hreset1, ?_⟩
    · dsimp only
      rw [hR, hL]
      exact_mod_cast hrem
    · dsimp only
      rw [hR]
      positivity
    · dsimp only
      simp [h]
  case isFalse h =>
    refine ⟨?_, ?_, hreset0, hreset1, ?_⟩
    · dsimp only
      rw [hR, hL]
      exact_mod_cast hrem
    · dsimp only
      rw [hR]
      positivity
    · dsimp only
      constructor
      · intro h2
        omega
      · intro h2
        exact absurd h2 h

theorem C4_witness :
    ((({ keyPref := "rl", limit := 10, window := 1000 } :
          SlidingWindowRateLimiter).Allow 5 "k" (fun _ => 0)).1.Remaining ≤
        ((({ keyPref := "rl", limit := 10, window := 1000 } :
          SlidingWindowRateLimiter)).Allow 5 "k" (fun _ => 0)).1.Limit)
  ∧ (0 ≤ ((({ keyPref := "rl", limit := 10, window := 1000 } :
          SlidingWindowRateLimiter)).Allow 5 "k" (fun _ => 0)).1.Remaining)
  ∧ (0 ≤ ((({ keyPref := "rl", limit := 10, window := 1000 } :
          SlidingWindowRateLimiter)).Allow 5 "k" (fun _ => 0)).1.WindowResetIn)
  ∧ (((({ keyPref := "rl", limit := 10, window := 1000 } :
          SlidingWindowRateLimiter)).Allow 5 "k" (fun _ => 0)).1.WindowResetIn ≤
        ((({ keyPref := "rl", limit := 10, window := 1000 } :
          SlidingWindowRateLimiter)).Allow 5 "k" (fun _ => 0)).1.Window)
  ∧ (((({ keyPref := "rl", limit := 10, window := 1000 } :
          SlidingWindowRateLimiter)).Allow 5 "k" (fun _ => 0)).1.RetryAfter = 0 ↔
        ((({ keyPref := "rl", limit := 10, window := 1000 } :
          SlidingWindowRateLimiter)).Allow 5 "k" (fun _ => 0)).1.Allowed = true) :=
  C4_result_invariants _ 5 "k" (fun _ => 0) (by decide) (by decide)

theorem Allow_snd (s : SlidingWindowRateLimiter) (now : ℤ) (key : String)
    (σ : CounterState) :
    (s.Allow now key σ).2 =
      (storeIncr σ (s.buildKey key (s.currentWindowIdx now))).2 := rfl

/-- Induction core for C2: if the current window's counter holds `c`, the
previous window's counter holds `0`, and at most `s.limit - c` more calls
arrive, all within window index `I`, then every produced `Result` is allowed. -/
theorem runAllows_all_allowed (s : SlidingWindowRateLimiter) (key : String)
    (hW : 0 < s.window) (hW2 : s.window < 2 ^ 63) (hlim : s.limit < 2 ^ 63) :
    ∀ (times : List ℤ) (I : ℤ) (σ : CounterState) (c : ℕ),
      (∀ t ∈ times, t.tdiv s.window = I) →
      σ (s.buildKey key I) = c →
      σ (s.buildKey key (I - 1)) = 0 →
      c + times.length ≤ s.limit →
      ∀ r ∈ (runAllows s key times σ).1, r.Allowed = true := by
  intro times
  induction times with
  | nil =>
    intro I σ c _ _ _ _ r hr
    simp [runAllows] at hr
  | cons t ts ih =>
    intro I σ c hT hσc hσp hcount r hr
    have hcount2 : c + ts.length + 1 ≤ s.limit := by
      simp only [List.length_cons] at hcount
      omega
    have hidx : s.currentWindowIdx t = I := hT t (by simp)
    have hσc2 : σ (s.buildKey key (s.currentWindowIdx t)) = c := by
      rw [hidx, hσc]
    simp only [runAllows, List.mem_cons] at hr
    rcases hr with hr | hr
    · subst hr
      rw [Allow_fst, allowResult_Allowed, hσc2, hidx, hσp]
      rw [allowed_iff_usage s t ((c : ℤ) + 1) 0 hW hW2 (by omega) (by omega)]
      have husage : usageSpec s.window t ((c : ℤ) + 1) 0 = (c + 1) * s.window.toNat := by
        unfold usageSpec
        have h1 : (max ((c : ℤ) + 1) 0).toNat = c + 1 := by omega
        have h2 : (max (0 : ℤ) 0).toNat = 0 := rfl
        rw [h1, h2]
        simp
      rw [husage]
      exact Nat.mul_le_mul_right _ (by omega)
    · have hc1 : (s.Allow t key σ).2 (s.buildKey key I) = (c : ℤ) + 1 := by
        rw [Allow_snd]
        unfold storeIncr
        dsimp only
        rw [hidx, if_pos rfl, hσc]
      have hp1 : (s.Allow t key σ).2 (s.buildKey key (I - 1)) = 0 := by
        rw [Allow_snd]
        unfold storeIncr
        dsimp only
        rw [hidx, if_neg (buildKey_ne s key (by omega)), hσp]
      have hc1' : (s.Allow t key σ).2 (s.buildKey key I) = ((c + 1 : ℕ) : ℤ) := by
        rw [hc1]
        push_cast
        ring
      exact ih I ((s.Allow t key σ).2) (c + 1) (fun u hu => hT u (by simp [hu]))
        hc1' hp1 (by omega) r hr

/-- C2: for every fixed key, limit and window `> 0`: if exactly `N ≤ limit`
calls to `Allow` occur within one fixed window (all with the same
`currentWindowIndex` `I`) and the counters for the current and previous window
indices start at `0` (no calls occurred in the prior window), then every one of
the `N` calls returns `Allowed = true`. -/
theorem C2_monotonic_window (s : SlidingWindowRateLimiter) (key : String)
    (times : List ℤ) (I : ℤ) (σ0 : CounterState)
    (hW : 0 < s.window) (hW2 : s.window < 2 ^ 63) (hlim : s.limit < 2 ^ 63)
    (hT : ∀ t ∈ times, t.tdiv s.window = I)
    (hcur : σ0 (s.buildKey key I) = 0)
    (hprev : σ0 (s.buildKey key (I - 1)) = 0)
    (hN : times.length ≤ s.limit) :
    ∀ r ∈ (runAllows s key times σ0).1, r.Allowed = true :=
  runAllows_all_allowed s key hW hW2 hlim times I σ0 0 hT hcur hprev (by omega)

theorem C2_witness :
    ((runAllows { keyPref := "rl", limit := 2, window := 1000 } "k" [5, 7]
        (fun _ => 0)).1.all (fun r => r.Allowed)) = true := by
  have h := C2_monotonic_window { keyPref := "rl", limit := 2, window := 1000 } "k"
    [5, 7] 0 (fun _ => 0) (by decide) (by decide) (by decide) (by decide) rfl rfl
    (by decide)
  exact List.all_eq_true.mpr (fun r hr => h r hr)

end RateLimit

namespace RateLimitMW

theorem normalizeMethod_GET : normalizeMethod "GET" = "GET" := by decide

theorem normalizeMethod_POST : normalizeMethod "POST" = "POST" := by decide

/-- C5: `findPolicy` resolves with strict three-tier precedence, and reports
not-found as a distinct outcome when no tier matches: (i) an explicit
`(pattern, "GET")` entry wins; (ii) without an explicit entry, a
default-by-method entry for `"GET"` is returned; (iii) without an explicit
entry and without a `"POST"` default-by-method entry, the catch-all default is
returned; (iv) when no tier matches, the result is `none`, not a zero-value
policy. -/
theorem C5_policy_precedence (p : RuntimePolicy) :
    (∀ (pat : String) (pm : String → Option Policy) (pxE : Policy),
      p.policyMap pat = some pm → pm "GET" = some pxE →
      p.findPolicy ⟨pat, "GET", ""⟩ = some (pxE, .explicit))
  ∧ (∀ (otherPat : String) (dm : String → Option Policy) (pxM : Policy),
      (p.policyMap otherPat = none ∨
        ∃ pm, p.policyMap otherPat = some pm ∧ pm "GET" = none) →
      p.defaultPolicyByMethod = some dm → dm "GET" = some pxM →
      p.findPolicy ⟨otherPat, "GET", ""⟩ = some (pxM, .defaultMethod))
  ∧ (∀ (otherPat : String) (pxD : Policy),
      (p.policyMap otherPat = none ∨
        ∃ pm, p.policyMap otherPat = some pm ∧ pm "POST" = none) →
      (p.defaultPolicyByMethod = none ∨
        ∃ dm, p.defaultPolicyByMethod = some dm ∧ dm "POST" = none) →
      p.defaultPolicy = some pxD →
      p.findPolicy ⟨otherPat, "POST", ""⟩ = some (pxD, .defaultAll))
  ∧ (∀ (ri : RouteInfo),
      (p.policyMap ri.ID = none ∨
        ∃ pm, p.policyMap ri.ID = some pm ∧ pm (normalizeMethod ri.Method) = none) →
      (p.defaultPolicyByMethod = none ∨
        ∃ dm, p.defaultPolicyByMethod = some dm ∧ dm (normalizeMethod ri.Method) = none) →
      p.defaultPolicy = none →
      p.findPolicy ri = none) := by
  refine ⟨?_, ?_, ?_, ?_⟩
  · intro pat pm pxE hmap hpx
    unfold RuntimePolicy.findPolicy
    simp only [hmap, normalizeMethod_GET, hpx]
  · intro otherPat dm pxM hmiss hdm hget
    unfold RuntimePolicy.findPolicy RuntimePolicy.findPolicyDefault
    rcases hmiss with hmiss | ⟨pm, hpm, hmiss⟩
    · simp only [hmiss, normalizeMethod_GET, hdm, hget]
      rw [if_pos (by decide)]
    · simp only [hpm, normalizeMethod_GET, hmiss, hdm, hget]
      rw [if_pos (by decide)]
  · intro otherPat pxD hmiss hdmiss hdef
    unfold RuntimePolicy.findPolicy RuntimePolicy.findPolicyDefault
    have hby : ∀ o : Option (String → Option Policy),
        (o = none ∨ ∃ dm, o = some dm ∧ dm "POST" = none) →
        (if ("POST" : String) ≠ "" then
            match o with
            | some dm => dm "POST"
            | none => none
          else none) = none := by
      intro o ho
      rw [if_pos (by decide)]
      rcases ho with ho | ⟨dm, ho, hdm2⟩
      · simp [ho]
      · simp [ho, hdm2]
    rcases hmiss with hmiss | ⟨pm, hpm, hmiss⟩
    · simp only [hmiss, normalizeMethod_POST]
      rw [hby p.defaultPolicyByMethod hdmiss]
      simp [hdef]
    · simp only [hpm, normalizeMethod_POST, hmiss]
      rw [hby p.defaultPolicyByMethod hdmiss]
      simp [hdef]
  · intro ri hmiss hdmiss hdef
    unfold RuntimePolicy.findPolicy RuntimePolicy.findPolicyDefault
    have htail :
        (if ri.Method ≠ "" then
            match p.defaultPolicyByMethod with
            | some dm => dm (normalizeMethod ri.Method)
            | none => none
          else none) = none := by
      by_cases hM : ri.Method = ""
      · rw [if_neg (by simpa using hM)]
      · rw [if_pos (by simpa using hM)]
        rcases hdmiss with h | ⟨dm, h, h2⟩
        · simp [h]
        · simp [h, h2]
    rcases hmiss with hmiss | ⟨pm, hpm, hmiss⟩
    · simp only [hmiss, htail, hdef]
    · simp only [hpm, hmiss, htail, hdef]


theorem C5_witness :
    sampleRuntime.findPolicy ⟨"/a", "GET", ""⟩ = some (samplePolicyA, .explicit)
  ∧ sampleRuntime.findPolicy ⟨"/b", "GET", ""⟩ = some (samplePolicyB, .defaultMethod)
  ∧ sampleRuntime.findPolicy ⟨"/b", "POST", ""⟩ = some (samplePolicyC, .defaultAll)
  ∧ emptyRuntime.findPolicy ⟨"/c", "GET", ""⟩ = none := by
  obtain ⟨h1, h2, h3, _⟩ := C5_policy_precedence sampleRuntime
  obtain ⟨_, _, _, g4⟩ := C5_policy_precedence emptyRuntime
  refine ⟨h1 "/a" _ samplePolicyA rfl rfl, h2 "/b" _ samplePolicyB (Or.inl rfl) rfl rfl,
    h3 "/b" samplePolicyC (Or.inl rfl) (Or.inr ⟨_, rfl, rfl⟩) rfl,
    g4 ⟨"/c", "GET", ""⟩ (Or.inl rfl) (Or.inl rfl) rfl⟩


theorem exceptIsOk_exists {ε α : Type} {e : Except ε α} (h : e.isOk = true) :
    ∃ a, e = .ok a := by
  cases e with
  | error _ => simp [Except.isOk, Except.toBool] at h
  | ok a => exact ⟨a, rfl⟩

theorem insertRule_ok {factory : LimiterFactory} {ks : String → Option KeyFunc}
    {pat : String} {rtp : RuntimePolicy} {rule : EndpointRule} {rtp1 : RuntimePolicy}
    (h : insertRule factory ks pat rtp rule = .ok rtp1) :
    hasPair rtp pat (normalizeMethod rule.Method) = false
    ∧ ∀ a b, (hasPair rtp1 a b = true ↔
        (a = pat ∧ b = normalizeMethod rule.Method) ∨ hasPair rtp a b = true) := by
  unfold insertRule at h
  dsimp only at h
  split at h
  · exact absurd h (by simp)
  case _ hpmm =>
    split at h
    · exact absurd h (by simp)
    case _ ksf hksf =>
      injection h with h
      subst h
      constructor
      · unfold hasPair
        rw [hpmm]
        rfl
      · intro a b
        unfold hasPair
        dsimp only
        by_cases hA : a = pat
        · subst hA
          rw [if_pos rfl]
          by_cases hB : b = normalizeMethod rule.Method
          · subst hB
            simp
          · rw [Option.getD_some]
            rw [if_neg hB]
            simp [hB]
        · rw [if_neg hA]
          simp [hA]

theorem insertRule_isOk {factory : LimiterFactory} {ks : String → Option KeyFunc}
    {pat : String} {rtp : RuntimePolicy} {rule : EndpointRule}
    (hfresh : hasPair rtp pat (normalizeMethod rule.Method) = false)
    (hks : (ks rule.KeyStrategy).isSome = true) :
    (insertRule factory ks pat rtp rule).isOk = true := by
  obtain ⟨ksf, hksf⟩ := Option.isSome_iff_exists.mp hks
  unfold hasPair at hfresh
  unfold insertRule
  dsimp only
  split
  case _ heq => rw [heq] at hfresh; simp at hfresh
  · rw [hksf]
    rfl

theorem rulesFold_ok (factory : LimiterFactory) (ks : String → Option KeyFunc)
    (pat : String) :
    ∀ (rules : List EndpointRule) (rtp rtp' : RuntimePolicy),
      List.foldlM (insertRule factory ks pat) rtp rules = .ok rtp' →
      ((rules.map (fun rule => (pat, normalizeMethod rule.Method))).Nodup
        ∧ (∀ rule ∈ rules, hasPair rtp pat (normalizeMethod rule.Method) = false)
        ∧ ∀ a b, (hasPair rtp' a b = true ↔
            (a = pat ∧ b ∈ rules.map (fun rule => normalizeMethod rule.Method))
              ∨ hasPair rtp a b = true)) := by
  intro rules
  induction rules with
  | nil =>
    intro rtp rtp' h
    have h2 : rtp = rtp' := by
      change Except.ok rtp = Except.ok rtp' at h
      injection h
    subst h2
    simp
  | cons rule rest ih =>
    intro rtp rtp' h
    change insertRule factory ks pat rtp rule >>=
      (fun b => List.foldlM (insertRule factory ks pat) b rest) = .ok rtp' at h
    cases hstep : insertRule factory ks pat rtp rule with
    | error e =>
      rw [hstep] at h
      change Except.error e = Except.ok rtp' at h
      exact Except.noConfusion h
    | ok rtp1 =>
      rw [hstep] at h
      change List.foldlM (insertRule factory ks pat) rtp1 rest = .ok rtp' at h
      obtain ⟨hfresh, hdom1⟩ := insertRule_ok hstep
      obtain ⟨hnd, hfresh2, hdom2⟩ := ih rtp1 rtp' h
      refine ⟨?_, ?_, ?_⟩
      · rw [List.map_cons, List.nodup_cons]
        refine ⟨?_, hnd⟩
        intro hmem
        rw [List.mem_map] at hmem
        obtain ⟨rule', hrule', heq⟩ := hmem
        have h1 : normalizeMethod rule'.Method = normalizeMethod rule.Method := by
          have := congrArg Prod.snd heq
          simpa using this
        have h2 := hfresh2 rule' hrule'
        rw [h1] at h2
        have h3 : hasPair rtp1 pat (normalizeMethod rule.Method) = true :=
          (hdom1 pat (normalizeMethod rule.Method)).mpr (Or.inl ⟨rfl, rfl⟩)
        rw [h2] at h3
        exact Bool.noConfusion h3
      · intro rule' hmem
        rw [List.mem_cons] at hmem
        rcases hmem with rfl | hmem
        · exact hfresh
        · cases hcp : hasPair rtp pat (normalizeMethod rule'.Method) with
          | false => rfl
          | true =>
            have h4 : hasPair rtp1 pat (normalizeMethod rule'.Method) = true :=
              (hdom1 _ _).mpr (Or.inr hcp)
            rw [hfresh2 rule' hmem] at h4
            exact Bool.noConfusion h4
      · intro a b
        rw [hdom2 a b, hdom1 a b]
        simp only [List.map_cons, List.mem_cons]
        tauto

theorem rulesFold_isOk (factory : LimiterFactory) (ks : String → Option KeyFunc)
    (pat : String) :
    ∀ (rules : List EndpointRule) (rtp : RuntimePolicy),
      (rules.map (fun rule => (pat, normalizeMethod rule.Method))).Nodup →
      (∀ rule ∈ rules, hasPair rtp pat (normalizeMethod rule.Method) = false) →
      (∀ rule ∈ rules, (ks rule.KeyStrategy).isSome = true) →
      (List.foldlM (insertRule factory ks pat) rtp rules).isOk = true := by
  intro rules
  induction rules with
  | nil => intro rtp _ _ _; rfl
  | cons rule rest ih =>
    intro rtp hnd hfresh hks
    have hok : (insertRule factory ks pat rtp rule).isOk = true :=
      insertRule_isOk (hfresh rule (by simp)) (hks rule (by simp))
    obtain ⟨rtp1, hstep⟩ := exceptIsOk_exists hok
    obtain ⟨_, hdom1⟩ := insertRule_ok hstep
    change (insertRule factory ks pat rtp rule >>=
      (fun b => List.foldlM (insertRule factory ks pat) b rest)).isOk = true
    rw [hstep]
    change (List.foldlM (insertRule factory ks pat) rtp1 rest).isOk = true
    rw [List.map_cons, List.nodup_cons] at hnd
    apply ih rtp1 hnd.2
    · intro rule' hmem
      have hne : normalizeMethod rule'.Method ≠ normalizeMethod rule.Method := by
        intro hE
        exact hnd.1 (List.mem_map.mpr ⟨rule', hmem, by rw [hE]⟩)
      cases hcp : hasPair rtp1 pat (normalizeMethod rule'.Method) with
      | false => rfl
      | true =>
        rcases (hdom1 _ _).mp hcp with ⟨_, hE⟩ | hold
        · exact absurd hE hne
        · rw [hfresh rule' (by simp [hmem])] at hold
          exact Bool.noConfusion hold
    · intro rule' hmem
      exact hks rule' (by simp [hmem])

theorem pair_mem_map {pat a b : String} {rules : List EndpointRule} :
    (a, b) ∈ rules.map (fun rule => (pat, normalizeMethod rule.Method)) ↔
      (a = pat ∧ b ∈ rules.map (fun rule => normalizeMethod rule.Method)) := by
  simp only [List.mem_map, Prod.mk.injEq]
  constructor
  · rintro ⟨rule, hmem, rfl, rfl⟩
    exact ⟨rfl, rule, hmem, rfl⟩
  · rintro ⟨rfl, rule, hmem, rfl⟩
    exact ⟨rule, hmem, rfl, rfl⟩

theorem processRoute_eq (factory : LimiterFactory) (ks : String → Option KeyFunc)
    (rtp : RuntimePolicy) (r : Route) :
    ∃ rtp1, processRoute factory ks rtp r =
        List.foldlM (insertRule factory ks r.Pattern) rtp1 r.EndpointRules
      ∧ ∀ a b, hasPair rtp1 a b = hasPair rtp a b := by
  unfold processRoute
  dsimp only
  cases hP : rtp.policyMap r.Pattern with
  | some pm => exact ⟨rtp, rfl, fun a b => rfl⟩
  | none =>
    refine ⟨_, rfl, ?_⟩
    intro a b
    unfold hasPair
    dsimp only
    by_cases hA : a = r.Pattern
    · subst hA
      rw [if_pos rfl, hP]
      rfl
    · rw [if_neg hA]

theorem routesFold_ok (factory : LimiterFactory) (ks : String → Option KeyFunc) :
    ∀ (routes : List Route) (rtp rtp' : RuntimePolicy),
      List.foldlM (processRoute factory ks) rtp routes = .ok rtp' →
      ((routes.flatMap (fun r =>
          r.EndpointRules.map (fun rule => (r.Pattern, normalizeMethod rule.Method)))).Nodup
        ∧ (∀ q ∈ routes.flatMap (fun r =>
            r.EndpointRules.map (fun rule => (r.Pattern, normalizeMethod rule.Method))),
            hasPair rtp q.1 q.2 = false)
        ∧ ∀ a b, (hasPair rtp' a b = true ↔
            (a, b) ∈ routes.flatMap (fun r =>
              r.EndpointRules.map (fun rule => (r.Pattern, normalizeMethod rule.Method)))
              ∨ hasPair rtp a b = true)) := by
  intro routes
  induction routes with
  | nil =>
    intro rtp rtp' h
    have h2 : rtp = rtp' := by
      change Except.ok rtp = Except.ok rtp' at h
      injection h
    subst h2
    simp
  | cons r rest ih =>
    intro rtp rtp' h
    change processRoute factory ks rtp r >>=
      (fun b => List.foldlM (processRoute factory ks) b rest) = .ok rtp' at h
    cases hstep : processRoute factory ks rtp r with
    | error e =>
      rw [hstep] at h
      change Except.error e = Except.ok rtp' at h
      exact Except.noConfusion h
    | ok rtp2 =>
      rw [hstep] at h
      change List.foldlM (processRoute factory ks) rtp2 rest = .ok rtp' at h
      obtain ⟨rtp1, heq, hpre⟩ := processRoute_eq factory ks rtp r
      rw [heq] at hstep
      obtain ⟨hndI, hfreshI, hdomI⟩ := rulesFold_ok factory ks r.Pattern _ _ _ hstep
      obtain ⟨hndR, hfreshR, hdomR⟩ := ih rtp2 rtp' h
      have hfreshI2 : ∀ q ∈ r.EndpointRules.map
          (fun rule => (r.Pattern, normalizeMethod rule.Method)),
          hasPair rtp q.1 q.2 = false := by
        rintro ⟨a, b⟩ hq
        obtain ⟨rfl, hb⟩ := pair_mem_map.mp hq
        obtain ⟨rule, hrule, rfl⟩ := List.mem_map.mp hb
        rw [← hpre]
        exact hfreshI rule hrule
      have hdomI2 : ∀ a b, (hasPair rtp2 a b = true ↔
          (a, b) ∈ r.EndpointRules.map
            (fun rule => (r.Pattern, normalizeMethod rule.Method))
          ∨ hasPair rtp a b = true) := by
        intro a b
        rw [hdomI a b, hpre a b, pair_mem_map]
      refine ⟨?_, ?_, ?_⟩
      · rw [List.flatMap_cons, List.nodup_append]
        refine ⟨by simpa using hndI, hndR, ?_⟩
        intro q hqI hqR
        have h1 : hasPair rtp2 q.1 q.2 = true := (hdomI2 q.1 q.2).mpr (Or.inl hqI)
        rw [hfreshR q hqR] at h1
        exact Bool.noConfusion h1
      · intro q hq
        rw [List.flatMap_cons, List.mem_append] at hq
        rcases hq with hq | hq
        · exact hfreshI2 q hq
        · cases hcp : hasPair rtp q.1 q.2 with
          | false => rfl
          | true =>
            have h1 : hasPair rtp2 q.1 q.2 = true := (hdomI2 q.1 q.2).mpr (Or.inr hcp)
            rw [hfreshR q hq] at h1
            exact Bool.noConfusion h1
      · intro a b
        rw [hdomR a b, hdomI2 a b, List.flatMap_cons, List.mem_append]
        tauto

theorem routesFold_isOk (factory : LimiterFactory) (ks : String → Option KeyFunc) :
    ∀ (routes : List Route) (rtp : RuntimePolicy),
      (routes.flatMap (fun r =>
        r.EndpointRules.map (fun rule => (r.Pattern, normalizeMethod rule.Method)))).Nodup →
      (∀ q ∈ routes.flatMap (fun r =>
          r.EndpointRules.map (fun rule => (r.Pattern, normalizeMethod rule.Method))),
          hasPair rtp q.1 q.2 = false) →
      (∀ r ∈ routes, ∀ rule ∈ r.EndpointRules, (ks rule.KeyStrategy).isSome = true) →
      (List.foldlM (processRoute factory ks) rtp routes).isOk = true := by
  intro routes
  induction routes with
  | nil => intro rtp _ _ _; rfl
  | cons r rest ih =>
    intro rtp hnd hfresh hks
    rw [List.flatMap_cons, List.nodup_append] at hnd
    obtain ⟨rtp1, heq, hpre⟩ := processRoute_eq factory ks rtp r
    have hok : (processRoute factory ks rtp r).isOk = true := by
      rw [heq]
      apply rulesFold_isOk factory ks r.Pattern r.EndpointRules rtp1
      · simpa using hnd.1
      · intro rule hrule
        rw [hpre]
        exact hfresh (r.Pattern, normalizeMethod rule.Method)
          (by rw [List.flatMap_cons, List.mem_append]
              exact Or.inl (List.mem_map.mpr ⟨rule, hrule, rfl⟩))
      · intro rule hrule
        exact hks r (by simp) rule hrule
    obtain ⟨rtp2, hstep⟩ := exceptIsOk_exists hok
    have hstep2 := hstep
    rw [heq] at hstep2
    obtain ⟨hndI, hfreshI, hdomI⟩ := rulesFold_ok factory ks r.Pattern _ _ _ hstep2
    have hdomI2 : ∀ a b, (hasPair rtp2 a b = true ↔
        (a, b) ∈ r.EndpointRules.map
          (fun rule => (r.Pattern, normalizeMethod rule.Method))
        ∨ hasPair rtp a b = true) := by
      intro a b
      rw [hdomI a b, hpre a b, pair_mem_map]
    change (processRoute factory ks rtp r >>=
      (fun b => List.foldlM (processRoute factory ks) b rest)).isOk = true
    rw [hstep]
    change (List.foldlM (processRoute factory ks) rtp2 rest).isOk = true
    apply ih rtp2 hnd.2.1
    · intro q hq
      cases hcp : hasPair rtp2 q.1 q.2 with
      | false => rfl
      | true =>
        rcases (hdomI2 q.1 q.2).mp hcp with hmem | hold
        · exact (hnd.2.2 hmem hq).elim
        · rw [hfresh q (by rw [List.flatMap_cons, List.mem_append]; exact Or.inr hq)] at hold
          exact Bool.noConfusion hold
    · intro r' hr' rule hrule
      exact hks r' (by simp [hr']) rule hrule

/-- `ParsePolicy` either fails on an unknown default key strategy, or reduces
to the route fold started from a runtime policy with an empty policy map. -/
theorem ParsePolicy_eq (factory : LimiterFactory) (cfg : RestHTTPConfig)
    (routeFn : RouteInfoFunc) (ks : String → Option KeyFunc) :
    (∃ rtpD, ParsePolicy factory cfg routeFn ks =
        List.foldlM (processRoute factory ks) rtpD cfg.Routes
      ∧ (∀ a b, hasPair rtpD a b = false))
  ∨ (ParsePolicy factory cfg routeFn ks =
        .error "ratelimit parse policy: no such default key strategy"
      ∧ (0 < cfg.DefaultPolicy.Window ∧ cfg.DefaultPolicy.KeyStrategy ≠ "")
      ∧ ks cfg.DefaultPolicy.KeyStrategy = none) := by
  unfold ParsePolicy
  dsimp only
  by_cases hcond : 0 < cfg.DefaultPolicy.Window ∧ cfg.DefaultPolicy.KeyStrategy ≠ ""
  · rw [if_pos hcond]
    cases hks : ks cfg.DefaultPolicy.KeyStrategy with
    | none => exact Or.inr ⟨rfl, hcond, rfl⟩
    | some ksf =>
      dsimp only
      split
      · exact Or.inl ⟨_, rfl, fun a b => rfl⟩
      · exact Or.inl ⟨_, rfl, fun a b => rfl⟩
  · rw [if_neg hcond]
    exact Or.inl ⟨_, rfl, fun a b => rfl⟩

/-- C6: `ParsePolicy` returns an error whenever the configuration declares two
endpoint rules for the same `(pattern, method)` pair, methods compared
case-insensitively (normalized to upper case); and for any configuration with
no such duplicate whose declared key-strategy identifiers (including the
default policy's, when the default is configured) are all known, construction
succeeds. -/
theorem C6_parse_policy_duplicates (factory : LimiterFactory) (routeFn : RouteInfoFunc)
    (ks : String → Option KeyFunc) (cfg : RestHTTPConfig) :
    (¬ (rulePairs cfg).Nodup → (ParsePolicy factory cfg routeFn ks).isOk = false)
  ∧ ((rulePairs cfg).Nodup →
      (∀ r ∈ cfg.Routes, ∀ rule ∈ r.EndpointRules, (ks rule.KeyStrategy).isSome = true) →
      ((0 < cfg.DefaultPolicy.Window ∧ cfg.DefaultPolicy.KeyStrategy ≠ "") →
        (ks cfg.DefaultPolicy.KeyStrategy).isSome = true) →
      (ParsePolicy factory cfg routeFn ks).isOk = true) := by
  constructor
  · intro hdup
    cases hres : (ParsePolicy factory cfg routeFn ks).isOk with
    | false => rfl
    | true =>
      exfalso
      obtain ⟨res, hok⟩ := exceptIsOk_exists hres
      rcases ParsePolicy_eq factory cfg routeFn ks with ⟨rtpD, heq, _⟩ | ⟨herr, _, _⟩
      · rw [heq] at hok
        exact hdup (routesFold_ok factory ks cfg.Routes rtpD res hok).1
      · rw [herr] at hok
        exact Except.noConfusion hok
  · intro hnd hksall hksdef
    rcases ParsePolicy_eq factory cfg routeFn ks with ⟨rtpD, heq, hempty⟩ | ⟨_, hcond, hksnone⟩
    · rw [heq]
      exact routesFold_isOk factory ks cfg.Routes rtpD hnd
        (fun q _ => hempty q.1 q.2) hksall
    · have h2 := hksdef hcond
      rw [hksnone] at h2
      exact Bool.noConfusion h2


theorem C6_witness :
    (ParsePolicy sampleFactory sampleCfgDup sampleRouteFn sampleKeyStrategies).isOk = false
  ∧ (ParsePolicy sampleFactory sampleCfgOk sampleRouteFn sampleKeyStrategies).isOk = true := by
  constructor
  · exact (C6_parse_policy_duplicates sampleFactory sampleRouteFn sampleKeyStrategies
      sampleCfgDup).1 (by decide)
  · exact (C6_parse_policy_duplicates sampleFactory sampleRouteFn sampleKeyStrategies
      sampleCfgOk).2 (by decide) (by decide) (by decide)


/-- C9 counterexample: a request with non-empty method `"GET"`, empty extracted
route pattern, no policy found and `AllowIfNoMatch = false` is rejected with
the 405-equivalent `MethodNotAllowed` outcome, not the claimed 429-equivalent. -/
theorem C9_counterexample :
    sampleRuntimeNoMatch.findPolicy (sampleRuntimeNoMatch.RouteInfoFn sampleRequest) = none
  ∧ (sampleRuntimeNoMatch.RouteInfoFn sampleRequest).Method ≠ ""
  ∧ sampleRuntimeNoMatch.AllowIfNoMatch = false
  ∧ rateLimitHandler sampleRuntimeNoMatch sampleRequest
      = (.methodNotAllowed "not allowed", false)
  ∧ (rateLimitHandler sampleRuntimeNoMatch sampleRequest).1
      ≠ .tooManyRequests tooManyRequestsText :=
  ⟨rfl, by decide, rfl, rfl, by decide⟩

/-- C9 (amended): for every request whose route info yields a non-empty method
but for which policy resolution finds no policy: if `AllowIfNoMatch` is set the
request is passed to the next handler unchanged; otherwise it is rejected —
with a 405-equivalent (`MethodNotAllowed`) outcome when the extracted route
pattern is empty, and with a 429-equivalent (`TooManyRequests`) outcome when it
is non-empty. The limiter is never consulted. -/
theorem C9_no_match_outcomes (p : RuntimePolicy) (r : Request)
    (hM : (p.RouteInfoFn r).Method ≠ "")
    (hnf : p.findPolicy (p.RouteInfoFn r) = none) :
    (p.AllowIfNoMatch = true → rateLimitHandler p r = (.nextHandler, false))
  ∧ (p.AllowIfNoMatch = false →
      rateLimitHandler p r =
        ((if (p.RouteInfoFn r).ID = "" then .methodNotAllowed "not allowed"
          else .tooManyRequests tooManyRequestsText), false)) := by
  unfold rateLimitHandler
  dsimp only
  rw [if_neg hM, hnf]
  constructor
  · intro h
    by_cases hid : (p.RouteInfoFn r).ID = "" <;> simp [hid, h]
  · intro h
    by_cases hid : (p.RouteInfoFn r).ID = "" <;> simp [hid, h]


theorem C9_witness :
    rateLimitHandler sampleRuntimeAllowThrough sampleRequest = (.nextHandler, false)
  ∧ rateLimitHandler sampleRuntimeDeny sampleRequest
      = (.tooManyRequests tooManyRequestsText, false) := by
  have h1 := C9_no_match_outcomes sampleRuntimeAllowThrough sampleRequest (by decide) rfl
  have h2 := C9_no_match_outcomes sampleRuntimeDeny sampleRequest (by decide) rfl
  refine ⟨h1.1 rfl, ?_⟩
  have h3 := h2.2 rfl
  rw [if_neg (by decide)] at h3
  exact h3

theorem goSplitChar_ne_nil (sep : Char) : ∀ l : List Char, goSplitChar sep l ≠ [] := by
  intro l
  induction l with
  | nil => simp [goSplitChar]
  | cons c cs ih =>
    unfold goSplitChar
    by_cases hc : c = sep
    · rw [if_pos hc]
      simp
    · rw [if_neg hc]
      cases hrec : goSplitChar sep cs with
      | nil => simp
      | cons h t => simp

/-- C10: `strings.Split` always returns at least one element, so the
`r.RemoteAddr` fallback branch of `RemoteIpKeyFunc` is unreachable; for every
request whose `X-Forwarded-For` header is absent or empty, `RemoteIpKeyFunc`
returns the empty key; and under a policy whose key extractor is
`RemoteIpKeyFunc`, with `AllowIfNoIdentifier = false`, every such request is
rejected with a 429-equivalent outcome before the limiter is consulted. -/
theorem C10_empty_xff_rejected :
    (∀ s : String, goSplit s ',' ≠ [])
  ∧ (∀ r : Request, r.headers "X-Forwarded-For" = "" → RemoteIpKeyFunc r = "")
  ∧ (∀ (p : RuntimePolicy) (r : Request) (px : Policy) (src : PolicySource),
      (p.RouteInfoFn r).Method ≠ "" →
      p.findPolicy (p.RouteInfoFn r) = some (px, src) →
      px.KeyFn = some RemoteIpKeyFunc →
      r.headers "X-Forwarded-For" = "" →
      p.AllowIfNoIdentifier = false →
      rateLimitHandler p r = (.tooManyRequests tooManyRequestsText, false)) := by
  have hkey : ∀ r : Request, r.headers "X-Forwarded-For" = "" → RemoteIpKeyFunc r = "" := by
    intro r h
    unfold RemoteIpKeyFunc goSplit
    rw [h]
    rfl
  refine ⟨fun s => goSplitChar_ne_nil ',' s.data, hkey, ?_⟩
  intro p r px src hM hfp hkf hxff hid
  unfold rateLimitHandler
  dsimp only
  rw [if_neg hM, hfp]
  dsimp only
  rw [hkf]
  dsimp only
  rw [if_pos ⟨hkey r hxff, by rw [hid]; simp⟩]


theorem C10_witness :
    goSplit "10.0.0.1,10.0.0.2" ',' ≠ []
  ∧ RemoteIpKeyFunc sampleRequest = ""
  ∧ rateLimitHandler sampleRuntimeIp sampleRequest
      = (.tooManyRequests tooManyRequestsText, false) := by
  obtain ⟨h1, h2, h3⟩ := C10_empty_xff_rejected
  exact ⟨h1 "10.0.0.1,10.0.0.2", h2 sampleRequest rfl,
    h3 sampleRuntimeIp sampleRequest sampleIpPolicy .explicit (by decide) rfl rfl rfl rfl⟩

end RateLimitMW

namespace Locking

/-- C7: for every `Execute` invocation with `LockAtLeastFor > 0` (and a valid
configuration and non-nil task) in which the lock is acquired and the task
returns: the executor computes `minHoldUntil = taskStart + LockAtLeastFor`; if
the current time precedes it, it enters the hold wait with a timer of exactly
`minHoldUntil - now` — so the timer case releases at `minHoldUntil` itself,
while a caller-context or lock-context cancellation abandons the wait (the
recorded `select` case) and release proceeds immediately; otherwise no wait
occurs. In all cases the task's own error value is what `Execute` returns. -/
theorem C7_lock_at_least_for (e : LockingTaskExecutor) (cfg : LockConfiguration)
    (env : ExecEnv)
    (hvalid : validateConfig cfg = none)
    (hacq : env.acquireErr = none)
    (hleast : 0 < cfg.LockAtLeastFor) :
    (e.Execute cfg false env).result = env.taskErr
  ∧ (env.afterTaskT < env.taskStartT + cfg.LockAtLeastFor →
      (e.Execute cfg false env).holdWait =
        some (env.taskStartT + cfg.LockAtLeastFor - env.afterTaskT, env.holdSelect)
      ∧ env.afterTaskT + (env.taskStartT + cfg.LockAtLeastFor - env.afterTaskT)
          = env.taskStartT + cfg.LockAtLeastFor)
  ∧ (env.taskStartT + cfg.LockAtLeastFor ≤ env.afterTaskT →
      (e.Execute cfg false env).holdWait = none) := by
  unfold LockingTaskExecutor.Execute
  rw [hvalid, hacq]
  dsimp only
  rw [if_pos hleast]
  refine ⟨rfl, fun hlt => ?_, fun hge => ?_⟩
  · rw [if_pos hlt]
    exact ⟨rfl, by omega⟩
  · have h2 : ¬(env.afterTaskT < env.taskStartT + cfg.LockAtLeastFor) := by omega
    rw [if_neg h2]
    rfl

theorem C7_witness :
    ((⟨false, 0, ""⟩ : LockingTaskExecutor).Execute ⟨"job", 0, 500⟩ false
        ⟨none, some (.simple "boom"), 100, 200, .timerFired⟩).result
      = some (.simple "boom")
  ∧ (((⟨false, 0, ""⟩ : LockingTaskExecutor).Execute ⟨"job", 0, 500⟩ false
        ⟨none, some (.simple "boom"), 100, 200, .timerFired⟩).holdWait
      = some (100 + 500 - 200, .timerFired)
      ∧ (200 : ℤ) + (100 + 500 - 200) = 100 + 500) := by
  have h := C7_lock_at_least_for ⟨false, 0, ""⟩ ⟨"job", 0, 500⟩
    ⟨none, some (.simple "boom"), 100, 200, .timerFired⟩ (by decide) rfl (by decide)
  exact ⟨h.1, h.2.1 (by decide)⟩

/-- C8 counterexample: in try-once mode, when acquisition fails with the
caller's `context.Canceled`, `Execute` returns the context error wrapped
inside the domain-specific try-acquire error — not the context error value
itself, contradicting the claim for the `TryWithContext` mode. -/
theorem C8_counterexample :
    ((⟨false, 0, ""⟩ : LockingTaskExecutor).Execute ⟨"job", 0, 0⟩ false
        ⟨some .canceled, none, 0, 0, .timerFired⟩).result
      = some (.errorf "locking: failed to try-acquire lock" .canceled)
  ∧ ((⟨false, 0, ""⟩ : LockingTaskExecutor).Execute ⟨"job", 0, 0⟩ false
        ⟨some .canceled, none, 0, 0, .timerFired⟩).result
      ≠ some .canceled := by
  constructor
  · rfl
  · decide

/-- C8 (amended): when lock acquisition fails because the caller's context was
cancelled or its deadline was exceeded (the locker returns the context's own
error value), `Execute` in blocking mode (`WithContext`) returns that error
as-is (value-equal); in try-once mode (`TryWithContext`) it wraps it in the
domain-specific try-acquire error — still `errors.Is`-detectable through the
`%w` chain, but not value-equal. -/
theorem C8_ctx_error_propagation (e : LockingTaskExecutor) (cfg : LockConfiguration)
    (env : ExecEnv) (err : GoError)
    (hvalid : validateConfig cfg = none)
    (hacq : env.acquireErr = some err)
    (herr : err = .canceled ∨ err = .deadlineExceeded) :
    (e.waitForLock = true → (e.Execute cfg false env).result = some err)
  ∧ (e.waitForLock = false →
      (e.Execute cfg false env).result
          = some (.errorf "locking: failed to try-acquire lock" err)
        ∧ errorsIs (.errorf "locking: failed to try-acquire lock" err) err = true) := by
  unfold LockingTaskExecutor.Execute
  rw [hvalid, hacq]
  dsimp only
  rcases herr with rfl | rfl
  · constructor
    · intro hw
      rw [hw]
      rfl
    · intro hw
      rw [hw]
      exact ⟨rfl, by decide⟩
  · constructor
    · intro hw
      rw [hw]
      rfl
    · intro hw
      rw [hw]
      exact ⟨rfl, by decide⟩

theorem C8_witness :
    ((⟨true, 0, ""⟩ : LockingTaskExecutor).Execute ⟨"job", 0, 0⟩ false
        ⟨some .canceled, none, 0, 0, .timerFired⟩).result
      = some .canceled := by
  have h := C8_ctx_error_propagation ⟨true, 0, ""⟩ ⟨"job", 0, 0⟩
    ⟨some .canceled, none, 0, 0, .timerFired⟩ .canceled (by decide) rfl (Or.inl rfl)
  exact h.1 rfl

end Locking
